import Mathlib

/-!
Verification development for the `links-to-epub` service (`src/main.py`).

The Python program is shallowly embedded: pure fragments become Lean
functions, filesystem reads and external collaborators (pydantic JSON
parsing, `urllib`/`bs4` fetching and scraping) become explicit function
parameters, and Python exceptions become `Except`/`Option` results.
Python lists are Lean `List`s; `str` is `String` (UTF-8 encoding is made
explicit where `hashlib` consumes bytes).
-/

namespace LinksToEpub

/-- `RssEntry` (src/main.py lines 71-79): one ledger record. -/
structure RssEntry where
  id : String
  title : String
  original_link : String
  content : String
deriving DecidableEq, Repr

/-- The `excerpt` property of `RssEntry` (src/main.py lines 77-79):
`return self.content` — it returns the full content unchanged. -/
def RssEntry.excerpt (e : RssEntry) : String := e.content

/-- `RssState` (src/main.py lines 82-84).  `updated` is a `datetime` in the
source; it is embedded as the opaque serialized timestamp string, since no
claim depends on timestamp arithmetic. -/
structure RssState where
  updated : String
  entries : List RssEntry
deriving DecidableEq, Repr

/-- The loop of `RssState.add_entry` (src/main.py lines 87-92):

    insert_at = 0
    for idx, e in enumerate(self.entries):
        if e.id == entry.id:
            self.entries.pop(idx)
            insert_at = idx

Python's list iterator yields the element at its internal cursor and then
advances the cursor; `pop(idx)` mutates the list under the live iterator, so
after a pop the next iteration reads position `idx + 1` of the *shortened*
list.  The embedding threads the mutated list and the cursor explicitly. -/
def addEntryGo (eid : String) (l : List RssEntry) (idx insertAt : Nat) :
    List RssEntry × Nat :=
  if h : idx < l.length then
    if (l.get ⟨idx, h⟩).id = eid then
      addEntryGo eid (l.eraseIdx idx) (idx + 1) idx
    else
      addEntryGo eid l (idx + 1) insertAt
  else
    (l, insertAt)
termination_by l.length - idx
decreasing_by
  · have : (l.eraseIdx idx).length = l.length - 1 := List.length_eraseIdx_of_lt h
    omega
  · omega

/-- `RssState.add_entry` (src/main.py lines 86-94): run the scan/pop loop,
then `self.entries.insert(insert_at, entry)`. -/
def RssState.add_entry (s : RssState) (entry : RssEntry) : RssState :=
  let p := addEntryGo entry.id s.entries 0 0
  { s with entries := p.1.insertIdx p.2 entry }

/-- The ids stored in a state, in order. -/
def RssState.ids (s : RssState) : List String := s.entries.map RssEntry.id

/-- If no element at cursor position `idx` or later has id `eid`, the
`add_entry` loop leaves the list and the insertion position untouched. -/
theorem addEntryGo_no_match (eid : String) (l : List RssEntry) (idx a : Nat)
    (h : ∀ j (hj : j < l.length), idx ≤ j → (l.get ⟨j, hj⟩).id ≠ eid) :
    addEntryGo eid l idx a = (l, a) := by
  unfold addEntryGo
  by_cases hlt : idx < l.length
  · rw [dif_pos hlt, if_neg (h idx hlt le_rfl)]
    exact addEntryGo_no_match eid l (idx + 1) a
      (fun j hj hij => h j hj (by omega))
  · rw [dif_neg hlt]
termination_by l.length - idx

/-- If position `i ≥ idx` holds the unique match for `eid` at or after the
cursor, the loop pops exactly that element and records `i` as the insertion
position. -/
theorem addEntryGo_found (eid : String) (l : List RssEntry) (idx a i : Nat)
    (hi : i < l.length) (hid : (l.get ⟨i, hi⟩).id = eid) (hidx : idx ≤ i)
    (huniq : ∀ j (hj : j < l.length), idx ≤ j → j ≠ i →
      (l.get ⟨j, hj⟩).id ≠ eid) :
    addEntryGo eid l idx a = (l.eraseIdx i, i) := by
  unfold addEntryGo
  rcases Nat.lt_or_ge idx i with hlt | hge
  · have hlen : idx < l.length := lt_trans hlt hi
    rw [dif_pos hlen, if_neg (huniq idx hlen le_rfl (Nat.ne_of_lt hlt))]
    exact addEntryGo_found eid l (idx + 1) a i hi hid hlt
      (fun j hj hij hne => huniq j hj (by omega) hne)
  · have hEq : idx = i := le_antisymm (le_of_eq (Nat.le_antisymm hidx hge ▸ rfl)) hge
    subst hEq
    rw [dif_pos hi, if_pos hid]
    apply addEntryGo_no_match
    intro j hj hij
    have hjlt : j + 1 < l.length := by
      have := List.length_eraseIdx_of_lt hi
      omega
    have : (l.eraseIdx idx).get ⟨j, hj⟩ = l.get ⟨j + 1, hjlt⟩ := by
      have := List.getElem_eraseIdx_of_ge l idx j hj (by omega)
      simpa [List.get_eq_getElem] using this
    rw [this]
    exact huniq (j + 1) hjlt (by omega) (by omega)
termination_by l.length - idx

/-- Re-inserting at the position of an erased element is `List.set`. -/
theorem insertIdx_eraseIdx_self {α : Type _} (a : α) :
    ∀ (l : List α) (i : Nat), i < l.length →
      (l.eraseIdx i).insertIdx i a = l.set i a
  | _ :: _, 0, _ => rfl
  | x :: l, i + 1, h => by
    simp only [List.eraseIdx_cons_succ, List.insertIdx_succ_cons, List.set_cons_succ]
    rw [insertIdx_eraseIdx_self a l i (by simpa using h)]

/-- Setting a position to the value it already holds is the identity. -/
theorem set_self_of_getElem {α : Type _} :
    ∀ (l : List α) (i : Nat) (a : α), i < l.length → l[i]? = some a → l.set i a = l
  | x :: l, 0, a, _, h => by simp_all
  | x :: l, i + 1, a, hl, h => by
    simp only [List.set_cons_succ]
    rw [set_self_of_getElem l i a (by simpa using hl) (by simpa using h)]

/-- In a state whose ids are distinct, `add_entry` with an id found at
position `i` replaces position `i`. -/
theorem add_entry_entries_of_mem (s : RssState) (entry : RssEntry)
    (hnd : s.ids.Nodup) (i : Nat) (hi : i < s.entries.length)
    (hid : (s.entries.get ⟨i, hi⟩).id = entry.id) :
    (s.add_entry entry).entries = s.entries.set i entry := by
  have huniq : ∀ j (hj : j < s.entries.length), 0 ≤ j → j ≠ i →
      (s.entries.get ⟨j, hj⟩).id ≠ entry.id := by
    intro j hj _ hne hcon
    apply hne
    have hj2 : j < s.ids.length := by simpa [RssState.ids] using hj
    have hi2 : i < s.ids.length := by simpa [RssState.ids] using hi
    have hmapj : s.ids.get ⟨j, hj2⟩ = entry.id := by
      simpa [RssState.ids] using hcon
    have hmapi : s.ids.get ⟨i, hi2⟩ = entry.id := by
      simpa [RssState.ids] using hid
    have hgij := (List.Nodup.get_inj_iff hnd).mp (hmapj.trans hmapi.symm)
    simpa using hgij
  have hgo := addEntryGo_found entry.id s.entries 0 0 i hi hid (Nat.zero_le i) huniq
  show (addEntryGo entry.id s.entries 0 0).1.insertIdx
      (addEntryGo entry.id s.entries 0 0).2 entry = _
  rw [hgo]
  exact insertIdx_eraseIdx_self entry s.entries i hi

/-- `add_entry` with a fresh id inserts at the front. -/
theorem add_entry_entries_of_not_mem (s : RssState) (entry : RssEntry)
    (h : entry.id ∉ s.ids) :
    (s.add_entry entry).entries = entry :: s.entries := by
  have hgo := addEntryGo_no_match entry.id s.entries 0 0 (by
    intro j hj _ hcon
    have hmem : (s.entries.get ⟨j, hj⟩).id ∈ s.ids :=
      List.mem_map_of_mem RssEntry.id (s.entries.get_mem _ _)
    exact h (hcon ▸ hmem))
  show (addEntryGo entry.id s.entries 0 0).1.insertIdx
      (addEntryGo entry.id s.entries 0 0).2 entry = _
  rw [hgo]
  rfl

/-- C1: upsert is replace-in-place.  In any ledger whose ids are pairwise
distinct, `add_entry` with an entry whose id equals the id of the existing
entry at position `i` replaces position `i` in place (`List.set`), leaving
every other entry at its position; with an id matching no existing entry it
inserts at position 0. -/
theorem add_entry_replace_in_place (s : RssState) (entry : RssEntry)
    (hnd : s.ids.Nodup) :
    (∀ i (hi : i < s.entries.length), (s.entries.get ⟨i, hi⟩).id = entry.id →
      (s.add_entry entry).entries = s.entries.set i entry) ∧
    (entry.id ∉ s.ids → (s.add_entry entry).entries = entry :: s.entries) :=
  ⟨fun i hi hid => add_entry_entries_of_mem s entry hnd i hi hid,
   fun h => add_entry_entries_of_not_mem s entry h⟩

/-- Witness for C1: in a two-entry ledger, re-adding id "idb" replaces
position 1 in place, and adding fresh id "idc" goes to the front. -/
theorem add_entry_replace_in_place_witness :
    (RssState.add_entry ⟨"t0", [⟨"ida", "A", "la", "ca"⟩, ⟨"idb", "B", "lb", "cb"⟩]⟩
        ⟨"idb", "B2", "lb2", "cb2"⟩).entries
      = [⟨"ida", "A", "la", "ca"⟩, ⟨"idb", "B2", "lb2", "cb2"⟩] ∧
    (RssState.add_entry ⟨"t0", [⟨"ida", "A", "la", "ca"⟩, ⟨"idb", "B", "lb", "cb"⟩]⟩
        ⟨"idc", "C", "lc", "cc"⟩).entries
      = [⟨"idc", "C", "lc", "cc"⟩, ⟨"ida", "A", "la", "ca"⟩, ⟨"idb", "B", "lb", "cb"⟩] := by
  constructor
  · have h := (add_entry_replace_in_place
      ⟨"t0", [⟨"ida", "A", "la", "ca"⟩, ⟨"idb", "B", "lb", "cb"⟩]⟩
      ⟨"idb", "B2", "lb2", "cb2"⟩ (by decide)).1 1 (by decide) (by decide)
    rw [h]; rfl
  · exact (add_entry_replace_in_place
      ⟨"t0", [⟨"ida", "A", "la", "ca"⟩, ⟨"idb", "B", "lb", "cb"⟩]⟩
      ⟨"idc", "C", "lc", "cc"⟩ (by decide)).2 (by decide)

/-- C2: uniqueness invariant.  If every id occurs at most once in the ledger,
then after `add_entry` the ids are still pairwise distinct; and when the new
entry's id already occurred, the entry count is unchanged and exactly one
entry carries that id. -/
theorem add_entry_unique_id (s : RssState) (entry : RssEntry)
    (hnd : s.ids.Nodup) :
    (s.add_entry entry).ids.Nodup ∧
    (entry.id ∈ s.ids →
      (s.add_entry entry).entries.length = s.entries.length ∧
      (s.add_entry entry).ids.count entry.id = 1) := by
  by_cases hmem : entry.id ∈ s.ids
  · obtain ⟨i, hi, hid⟩ :
        ∃ i, ∃ hi : i < s.entries.length,
          (s.entries.get ⟨i, hi⟩).id = entry.id := by
      obtain ⟨e, he, heid⟩ := List.mem_map.mp (show entry.id ∈ s.entries.map RssEntry.id from hmem)
      obtain ⟨⟨i, hi⟩, hg⟩ := List.mem_iff_get.mp he
      exact ⟨i, hi, by rw [hg]; exact heid⟩
    have hset := add_entry_entries_of_mem s entry hnd i hi hid
    have hids : (s.add_entry entry).ids = s.ids := by
      show ((s.add_entry entry).entries).map RssEntry.id = s.entries.map RssEntry.id
      rw [hset, List.map_set]
      apply set_self_of_getElem _ i entry.id (by simpa using hi)
      rw [List.getElem?_eq_getElem (by simpa using hi)]
      simp only [List.getElem_map, Option.some.injEq]
      rw [← hid]; simp
    refine ⟨hids ▸ hnd, fun _ => ⟨?_, ?_⟩⟩
    · rw [hset]; simp
    · rw [hids]; exact List.count_eq_one_of_mem hnd hmem
  · have hset := add_entry_entries_of_not_mem s entry hmem
    have hids : (s.add_entry entry).ids = entry.id :: s.ids := by
      show ((s.add_entry entry).entries).map RssEntry.id = _
      rw [hset]; rfl
    refine ⟨?_, fun h => absurd h hmem⟩
    rw [hids]
    exact List.nodup_cons.mpr ⟨hmem, hnd⟩

/-- Witness for C2: re-adding id "idb" to a distinct-id two-entry ledger
keeps the length at 2 and leaves exactly one entry with id "idb". -/
theorem add_entry_unique_id_witness :
    ((RssState.add_entry ⟨"t0", [⟨"ida", "A", "la", "ca"⟩, ⟨"idb", "B", "lb", "cb"⟩]⟩
        ⟨"idb", "B2", "lb2", "cb2"⟩).ids.Nodup ∧
      (RssState.add_entry ⟨"t0", [⟨"ida", "A", "la", "ca"⟩, ⟨"idb", "B", "lb", "cb"⟩]⟩
        ⟨"idb", "B2", "lb2", "cb2"⟩).entries.length = 2 ∧
      (RssState.add_entry ⟨"t0", [⟨"ida", "A", "la", "ca"⟩, ⟨"idb", "B", "lb", "cb"⟩]⟩
        ⟨"idb", "B2", "lb2", "cb2"⟩).ids.count "idb" = 1) := by
  have h := add_entry_unique_id
    ⟨"t0", [⟨"ida", "A", "la", "ca"⟩, ⟨"idb", "B", "lb", "cb"⟩]⟩
    ⟨"idb", "B2", "lb2", "cb2"⟩ (by decide)
  obtain ⟨h1, h2⟩ := h
  obtain ⟨h3, h4⟩ := h2 (by decide)
  exact ⟨h1, h3, h4⟩

namespace MD5

/-- Left-rotation of a 32-bit word (RFC 1321), operands below `2 ^ 32`. -/
def rotl32 (x n : Nat) : Nat := ((x <<< n) ||| (x >>> (32 - n))) % 4294967296

/-- Per-round shift amounts of MD5. -/
def sTable : List Nat :=
  [7, 12, 17, 22, 7, 12, 17, 22, 7, 12, 17, 22, 7, 12, 17, 22,
   5, 9, 14, 20, 5, 9, 14, 20, 5, 9, 14, 20, 5, 9, 14, 20,
   4, 11, 16, 23, 4, 11, 16, 23, 4, 11, 16, 23, 4, 11, 16, 23,
   6, 10, 15, 21, 6, 10, 15, 21, 6, 10, 15, 21, 6, 10, 15, 21]

/-- Per-round additive constants of MD5, the integer parts of
`abs (sin (i + 1)) * 2 ^ 32`. -/
def kTable : List Nat :=
  [0xd76aa478, 0xe8c7b756, 0x242070db, 0xc1bdceee,
   0xf57c0faf, 0x4787c62a, 0xa8304613, 0xfd469501,
   0x698098d8, 0x8b44f7af, 0xffff5bb1, 0x895cd7be,
   0x6b901122, 0xfd987193, 0xa679438e, 0x49b40821,
   0xf61e2562, 0xc040b340, 0x265e5a51, 0xe9b6c7aa,
   0xd62f105d, 0x02441453, 0xd8a1e681, 0xe7d3fbc8,
   0x21e1cde6, 0xc33707d6, 0xf4d50d87, 0x455a14ed,
   0xa9e3e905, 0xfcefa3f8, 0x676f02d9, 0x8d2a4c8a,
   0xfffa3942, 0x8771f681, 0x6d9d6122, 0xfde5380c,
   0xa4beea44, 0x4bdecfa9, 0xf6bb4b60, 0xbebfbc70,
   0x289b7ec6, 0xeaa127fa, 0xd4ef3085, 0x04881d05,
   0xd9d4d039, 0xe6db99e5, 0x1fa27cf8, 0xc4ac5665,
   0xf4292244, 0x432aff97, 0xab9423a7, 0xfc93a039,
   0x655b59c3, 0x8f0ccc92, 0xffeff47d, 0x85845dd1,
   0x6fa87e4f, 0xfe2ce6e0, 0xa3014314, 0x4e0811a1,
   0xf7537e82, 0xbd3af235, 0x2ad7d2bb, 0xeb86d391]

/-- Little-endian byte decomposition, fixed width. -/
def toBytesLE : Nat → Nat → List Nat
  | 0, _ => []
  | k + 1, n => n % 256 :: toBytesLE k (n / 256)

/-- MD5 padding: a `0x80` byte, zeros to 56 mod 64, then the 64-bit
little-endian bit length. -/
def pad (msg : List Nat) : List Nat :=
  msg ++ 128 :: List.replicate ((119 - msg.length % 64) % 64) 0 ++
    toBytesLE 8 (msg.length * 8)

/-- Split a byte list into 64-byte chunks; the fuel only bounds the chunk
count and `l.length` always suffices, keeping the recursion structural. -/
def chunks64Go : Nat → List Nat → List (List Nat)
  | 0, _ => []
  | _, [] => []
  | fuel + 1, a :: l => (a :: l).take 64 :: chunks64Go fuel ((a :: l).drop 64)

/-- Split a byte list into 64-byte chunks. -/
def chunks64 (l : List Nat) : List (List Nat) := chunks64Go l.length l

/-- The `g`-th little-endian 32-bit word of a chunk. -/
def word (chunk : List Nat) (g : Nat) : Nat :=
  chunk.getD (4 * g) 0 + 256 * chunk.getD (4 * g + 1) 0 +
    65536 * chunk.getD (4 * g + 2) 0 + 16777216 * chunk.getD (4 * g + 3) 0

/-- One of the 64 MD5 rounds. -/
def roundStep (chunk : List Nat) (st : Nat × Nat × Nat × Nat) (i : Nat) :
    Nat × Nat × Nat × Nat :=
  let (a, b, c, d) := st
  let f :=
    if i < 16 then (b &&& c) ||| ((b ^^^ 0xffffffff) &&& d)
    else if i < 32 then (d &&& b) ||| ((d ^^^ 0xffffffff) &&& c)
    else if i < 48 then b ^^^ c ^^^ d
    else c ^^^ (b ||| (d ^^^ 0xffffffff))
  let g :=
    if i < 16 then i
    else if i < 32 then (5 * i + 1) % 16
    else if i < 48 then (3 * i + 5) % 16
    else 7 * i % 16
  let f2 := (f + a + kTable.getD i 0 + word chunk g) % 4294967296
  (d, (b + rotl32 f2 (sTable.getD i 0)) % 4294967296, b, c)

/-- Compress one 64-byte chunk into the running state. -/
def processChunk (st : Nat × Nat × Nat × Nat) (chunk : List Nat) :
    Nat × Nat × Nat × Nat :=
  let (a0, b0, c0, d0) := st
  let (a, b, c, d) := (List.range 64).foldl (roundStep chunk) st
  ((a0 + a) % 4294967296, (b0 + b) % 4294967296,
   (c0 + c) % 4294967296, (d0 + d) % 4294967296)

/-- MD5 digest (16 bytes) of a byte list. -/
def md5bytes (msg : List Nat) : List Nat :=
  let (a, b, c, d) := (chunks64 (pad msg)).foldl processChunk
    (0x67452301, 0xefcdab89, 0x98badcfe, 0x10325476)
  toBytesLE 4 a ++ toBytesLE 4 b ++ toBytesLE 4 c ++ toBytesLE 4 d

/-- Lower-case hexadecimal digit. -/
def hexDigit (n : Nat) : Char :=
  if n < 10 then Char.ofNat (48 + n) else Char.ofNat (87 + n)

/-- Lower-case hexadecimal rendering of a byte list. -/
def bytesToHex (l : List Nat) : List Char :=
  (l.map fun b => [hexDigit (b / 16), hexDigit (b % 16)]).flatten

/-- UTF-8 encoding of one character, as Python's `str.encode("utf-8")`. -/
def utf8Bytes (c : Char) : List Nat :=
  let n := c.toNat
  if n < 128 then [n]
  else if n < 2048 then [192 + n / 64, 128 + n % 64]
  else if n < 65536 then [224 + n / 4096, 128 + n / 64 % 64, 128 + n % 64]
  else [240 + n / 262144, 128 + n / 4096 % 64, 128 + n / 64 % 64, 128 + n % 64]

end MD5

/-- `md5sum` (src/main.py lines 141-144):
`md5(url.encode("utf-8")).hexdigest()`. -/
def md5sum (url : String) : String :=
  ⟨MD5.bytesToHex (MD5.md5bytes ((url.data.map MD5.utf8Bytes).flatten))⟩

/-- `SubmitRequest` (src/main.py lines 66-68): the `POST /submit` body. -/
structure SubmitRequest where
  url : String
  title : Option String
deriving DecidableEq, Repr

/-- The identity computed by `submit` (src/main.py line 286):
`request_id = f"req-{md5sum(req.url)}"`. -/
def requestId (req : SubmitRequest) : String := "req-" ++ md5sum req.url

/-- C3: idempotent identity.  The id returned by `submit` is a deterministic
function of the submitted URL alone: two requests with the same URL — whatever
their titles — receive the same id. -/
theorem requestId_deterministic (r₁ r₂ : SubmitRequest) (h : r₁.url = r₂.url) :
    requestId r₁ = requestId r₂ := by
  unfold requestId md5sum
  rw [h]

/-- Witness for C3: the URL of the repository's happy-path test, submitted
with and without a title, gets the id recorded in that test. -/
theorem requestId_deterministic_witness :
    requestId ⟨"https://essekkat.pl/", none⟩ =
      requestId ⟨"https://essekkat.pl/", some "Weaseland"⟩ ∧
    requestId ⟨"https://essekkat.pl/", none⟩ =
      "req-dfd275036d2869caa7072e47ab5a9fe1" := by
  refine ⟨requestId_deterministic _ _ rfl, ?_⟩
  decide

/-- Characters matched by Python's regex class `\s` on `str` patterns (the
complement of `\S`), as enumerated from CPython's `re` module. -/
def pyWhitespace (c : Char) : Bool :=
  (9 ≤ c.toNat && c.toNat ≤ 13) || (28 ≤ c.toNat && c.toNat ≤ 32) ||
    c.toNat = 133 || c.toNat = 160 || c.toNat = 5760 ||
    (8192 ≤ c.toNat && c.toNat ≤ 8202) || c.toNat = 8232 || c.toNat = 8233 ||
    c.toNat = 8239 || c.toNat = 8287 || c.toNat = 12288

/-- The regex class `[ \t]`. -/
def isSpaceTab (c : Char) : Bool := c == ' ' || c == '\t'

/-- Split on newline characters; `n` newlines yield `n + 1` lines.  With the
`re.M` flag, `^` anchors exactly at position 0 and after each newline, `$`
before each newline and at the end, and `.` never crosses a newline, so
`re.sub` over the whole text acts independently on these lines. -/
def splitLines : List Char → List (List Char)
  | [] => [[]]
  | c :: cs =>
    if c = '\n' then [] :: splitLines cs
    else
      match splitLines cs with
      | [] => [[c]]
      | l :: ls => (c :: l) :: ls

/-- Rejoin lines with newline characters, inverse of `splitLines`. -/
def joinLines : List (List Char) → List Char
  | [] => []
  | [l] => l
  | l :: ls => l ++ '\n' :: joinLines ls

/-- Length of the leading run of `#` characters of a line. -/
def headingLen (line : List Char) : Nat :=
  (line.takeWhile fun c => c == '#').length

/-- Does the list start with a space or tab character? -/
def headSpaceTab : List Char → Bool
  | [] => false
  | c :: _ => isSpaceTab c

/-- Whether `heading_re = ^(#{1,6})([ \t]+)(.*\S.*)$` (src/main.py line 226)
matches at the start of this newline-free line.  `#{1,6}` followed by the
mandatory `[ \t]+` can only consume the entire leading `#`-run (a shorter
attempt leaves a `#` where a space or tab is required), so: the run length is
1..6, the character after the run is a space or tab, and — since `[ \t]+`
backtracking only moves spaces or tabs into `(.*\S.*)` — the remainder of the
line contains some non-`\s` character. -/
def lineMatches (line : List Char) : Bool :=
  decide (1 ≤ headingLen line) && decide (headingLen line ≤ 6) &&
    headSpaceTab (line.dropWhile fun c => c == '#') &&
    (line.dropWhile fun c => c == '#').any fun c => !pyWhitespace c

/-- The per-line effect of `heading_re.sub(repl, md)` with `repl` from
src/main.py lines 228-234: on a matching line, group 1 (the `#`-run) is
replaced by `min (max run minLevel) 6` many `#`, written as in the source
(`if level < min_level: level = min_level` then `min(level, 6)`), and groups
2-3 — everything after the run — are kept; other lines are unchanged. -/
def transformLine (minLevel : Nat) (line : List Char) : List Char :=
  if lineMatches line then
    let level0 := if headingLen line < minLevel then minLevel else headingLen line
    let level := min level0 6
    List.replicate level '#' ++ (line.dropWhile fun c => c == '#')
  else line

/-- The substitution pass of `enforce_min_heading_level`, line by line. -/
def enforceCore (md : List Char) (minLevel : Nat) : List Char :=
  joinLines ((splitLines md).map (transformLine minLevel))

/-- `enforce_min_heading_level` (src/main.py lines 208-236): raises a
`ValueError` — embedded as `Except.error` — unless `1 <= min_level <= 6`,
then applies the multiline regex substitution. -/
def enforce_min_heading_level (md : String) (minLevel : Nat) :
    Except String String :=
  if 1 ≤ minLevel ∧ minLevel ≤ 6 then
    Except.ok ⟨enforceCore md.data minLevel⟩
  else
    Except.error "min_level musi byc w zakresie 1..6"

/-- A line's leading `#`-run, read off through `headingLen`. -/
theorem takeWhile_hash_replicate (line : List Char) :
    (line.takeWhile fun c => c == '#') =
      List.replicate (headingLen line) '#' := by
  induction line with
  | nil => rfl
  | cons c cs ih =>
    by_cases h : c = '#'
    · subst h
      simp only [headingLen, List.takeWhile_cons, beq_self_eq_true, if_true,
        List.length_cons, List.replicate_succ]
      rw [ih]
      simp [headingLen]
    · simp [headingLen, List.takeWhile_cons, h]

/-- The `#`-run of `n` hashes glued onto a non-`#` head has length `n`. -/
theorem headingLen_replicate_append (n : Nat) (c : Char) (cs : List Char)
    (h : (c == '#') = false) :
    headingLen (List.replicate n '#' ++ c :: cs) = n := by
  have h' : ¬ c = '#' := by simpa using h
  induction n with
  | zero => simp [headingLen, List.takeWhile_cons, h']
  | succ n ih =>
    simp only [List.replicate_succ, List.cons_append]
    simp only [headingLen, List.takeWhile_cons, beq_self_eq_true, if_true] at ih ⊢
    simp [ih, h']

/-- C4: heading normalization.  For every Markdown text and `min_level` in
1..6, `enforce_min_heading_level` rewrites the text line by line; a line the
heading regex does not match is unchanged; a matching heading at level at
least `min_level` is unchanged; a matching heading below `min_level` becomes
exactly `min_level` hashes followed by the rest of the line; no produced
heading exceeds level 6; and on "# H1\n## H2\n### H3" the result with
`min_level = 2` is "## H1\n## H2\n### H3" while `min_level = 1` returns the
input unchanged. -/
theorem enforce_min_heading_level_spec (md : String) (minLevel : Nat)
    (hmin1 : 1 ≤ minLevel) (hmin6 : minLevel ≤ 6) :
    enforce_min_heading_level md minLevel =
      Except.ok ⟨joinLines ((splitLines md.data).map (transformLine minLevel))⟩ ∧
    (∀ line, lineMatches line = false → transformLine minLevel line = line) ∧
    (∀ line, lineMatches line = true → minLevel ≤ headingLen line →
      transformLine minLevel line = line) ∧
    (∀ line, lineMatches line = true → headingLen line < minLevel →
      transformLine minLevel line =
        List.replicate minLevel '#' ++ (line.dropWhile fun c => c == '#') ∧
      headingLen (transformLine minLevel line) = minLevel) ∧
    (∀ line, lineMatches line = true →
      headingLen (transformLine minLevel line) ≤ 6) ∧
    enforce_min_heading_level "# H1\n## H2\n### H3" 2 =
      Except.ok "## H1\n## H2\n### H3" ∧
    enforce_min_heading_level "# H1\n## H2\n### H3" 1 =
      Except.ok "# H1\n## H2\n### H3" := by
  have hrest : ∀ line : List Char, lineMatches line = true →
      ∃ c cs, (line.dropWhile fun c => c == '#') = c :: cs ∧
        (c == '#') = false := by
    intro line hm
    simp only [lineMatches, Bool.and_eq_true, decide_eq_true_eq] at hm
    obtain ⟨⟨⟨_, _⟩, hhead⟩, _⟩ := hm
    cases hd : line.dropWhile fun c => c == '#' with
    | nil => rw [hd] at hhead; exact absurd hhead (by simp [headSpaceTab])
    | cons c cs =>
      refine ⟨c, cs, rfl, ?_⟩
      rw [hd] at hhead
      simp only [headSpaceTab, isSpaceTab, Bool.or_eq_true, beq_iff_eq] at hhead
      rcases hhead with h | h <;> simp [h]
  have hk6 : ∀ line : List Char, lineMatches line = true → headingLen line ≤ 6 := by
    intro line hm
    simp only [lineMatches, Bool.and_eq_true, decide_eq_true_eq] at hm
    exact hm.1.1.2
  have hunch : ∀ line, lineMatches line = true → minLevel ≤ headingLen line →
      transformLine minLevel line = line := by
    intro line hm hle
    have h6 := hk6 line hm
    have hnlt : ¬ headingLen line < minLevel := Nat.not_lt.mpr hle
    have heq : transformLine minLevel line =
        List.replicate (headingLen line) '#' ++
          (line.dropWhile fun c => c == '#') := by
      simp [transformLine, hm, hnlt, Nat.min_eq_left h6]
    rw [heq, ← takeWhile_hash_replicate line]
    exact List.takeWhile_append_dropWhile (fun c => c == '#') line
  have hraise : ∀ line, lineMatches line = true → headingLen line < minLevel →
      transformLine minLevel line =
        List.replicate minLevel '#' ++ (line.dropWhile fun c => c == '#') ∧
      headingLen (transformLine minLevel line) = minLevel := by
    intro line hm hlt
    have heq : transformLine minLevel line =
        List.replicate minLevel '#' ++ (line.dropWhile fun c => c == '#') := by
      simp [transformLine, hm, hlt, Nat.min_eq_left hmin6]
    refine ⟨heq, ?_⟩
    obtain ⟨c, cs, hd, hc⟩ := hrest line hm
    rw [heq, hd]
    exact headingLen_replicate_append minLevel c cs hc
  refine ⟨by rw [enforce_min_heading_level, if_pos ⟨hmin1, hmin6⟩]; rfl,
    fun line hm => by simp [transformLine, hm], hunch, hraise, ?_, rfl, rfl⟩
  intro line hm
  rcases Nat.lt_or_ge (headingLen line) minLevel with hlt | hge
  · rw [(hraise line hm hlt).2]; exact hmin6
  · rw [hunch line hm hge]; exact hk6 line hm

/-- Witness for C4: instantiating the normalization theorem at the spec's
example text with `min_level = 2`. -/
theorem enforce_min_heading_level_spec_witness :
    enforce_min_heading_level "# H1\n## H2\n### H3" 2 =
      Except.ok "## H1\n## H2\n### H3" ∧
    transformLine 2 ("# H1".data) = ("## H1").data ∧
    transformLine 2 ("### H3".data) = ("### H3").data := by
  have h := enforce_min_heading_level_spec "# H1\n## H2\n### H3" 2
    (by decide) (by decide)
  refine ⟨h.2.2.2.2.2.1, ?_, ?_⟩
  · exact (h.2.2.2.1 ("# H1".data) (by decide) (by decide)).1
  · exact h.2.2.1 ("### H3".data) (by decide) (by decide)

/-- With the valid literal `min_level = 2` used by the merge loop,
`enforce_min_heading_level` never errors. -/
theorem enforce_at_two (md : String) :
    enforce_min_heading_level md 2 = Except.ok ⟨enforceCore md.data 2⟩ := rfl

/-- One iteration of the merge loop (src/main.py lines 245-256): the five
strings appended for entry `e`.  `files` maps an entry id to the text of its
markdown file `data_dir / (id ++ ".md")`; the content is passed through
`enforce_min_heading_level(content, 2)`, which by `enforce_at_two` is the
pure `enforceCore` pass. -/
def entryPieces (files : String → String) (e : RssEntry) : List String :=
  ["# " ++ e.title ++ "\n",
   "Published on " ++ e.title ++ ".\n",
   "Source link: [" ++ e.original_link ++ "](" ++ e.original_link ++ ").\n",
   ⟨enforceCore (files e.id).data 2⟩,
   "\n---\n\n"]

/-- The `merged_markdowns` list built by `merge_markdowns_into_epub`
(src/main.py lines 241-256): two header strings, then — iterating
`reversed(state.entries)`, oldest first — the five per-entry strings. -/
def mergeList (files : String → String) (state : RssState) : List String :=
  ["# EPUB Downloads Feed\n\n",
   "Last updated: " ++ state.updated ++ ".\n\n"] ++
    (state.entries.reverse.map (entryPieces files)).flatten

/-- `merge_markdowns_into_epub` (src/main.py lines 239-261), modelled as the
text that `f.writelines(merged_markdowns)` writes to `feed.md` (the
subsequent EPUB conversion is the external `convertext` collaborator). -/
def merge_markdowns_into_epub (files : String → String) (state : RssState) :
    String :=
  String.join (mergeList files state)

/-- The contiguous block of merged text contributed by one entry. -/
def entrySection (files : String → String) (e : RssEntry) : String :=
  String.join (entryPieces files e)

/-- `String.join` of a `foldl` run, at the level of character data. -/
theorem data_foldl_append (l : List String) (s : String) :
    (l.foldl (fun a b => a ++ b) s).data = s.data ++ (l.map String.data).flatten := by
  induction l generalizing s with
  | nil => simp
  | cons x xs ih => simp [List.foldl_cons, ih]

/-- The character data of a joined list of strings. -/
theorem data_join (l : List String) :
    (String.join l).data = (l.map String.data).flatten := by
  have h := data_foldl_append l ""
  simpa [String.join] using h

/-- Strings with equal character data are equal. -/
theorem string_eq_of_data (a b : String) (h : a.data = b.data) : a = b := by
  cases a; cases b; exact congrArg String.mk h

/-- C5: merged EPUB digest order.  The merged markdown is the fixed header
followed by the per-entry sections taken in reverse of the stored
most-recent-first order — the oldest entry's section comes first — and each
entry's section is its level-1 heading `# title`, a `Published on` line, a
visible source-link line containing `original_link` twice (label and target),
the entry's normalized file content, and a separator. -/
theorem merge_markdowns_spec (files : String → String) (s : RssState) :
    merge_markdowns_into_epub files s =
      "# EPUB Downloads Feed\n\n" ++
        ("Last updated: " ++ s.updated ++ ".\n\n") ++
        String.join (s.entries.reverse.map (entrySection files)) ∧
    ∀ e : RssEntry,
      entrySection files e =
        "# " ++ e.title ++ "\n" ++
          ("Published on " ++ e.title ++ ".\n" ++
            ("Source link: [" ++ e.original_link ++ "](" ++ e.original_link ++
                ").\n" ++
              ((⟨enforceCore (files e.id).data 2⟩ : String) ++ "\n---\n\n"))) := by
  constructor
  · apply string_eq_of_data
    simp [merge_markdowns_into_epub, mergeList, entrySection, data_join,
      List.map_map, Function.comp, List.flatten_flatten]
    have hsec : (String.data ∘ entrySection files) =
        (List.flatten ∘ List.map String.data ∘ entryPieces files) := by
      funext e
      simp [entrySection, data_join, Function.comp]
    rw [hsec]
  · intro e
    apply string_eq_of_data
    simp [entrySection, entryPieces, data_join]

/-- The state-loading step of `update_rss_state` (src/main.py lines 154-162).
`file` embeds the filesystem read: `none` when `rss_state_path.is_file()` is
false, otherwise the file's text.  `parse` embeds pydantic's
`RssState.model_validate_json`, returning `none` when it raises.  `now` is
`datetime.now(UTC)`, the `updated` default of a freshly constructed
`RssState()`.  A parse failure becomes the source's
`raise RuntimeError(f"RSS state file error: ...")`. -/
def loadState (file : Option String) (parse : String → Option RssState)
    (now : String) : Except String RssState :=
  match file with
  | none => Except.ok { updated := now, entries := [] }
  | some text =>
    match parse text with
    | some state => Except.ok state
    | none => Except.error "RSS state file error"

/-- C6: state load behaviour.  With no ledger file, loading yields a fresh
empty ledger whose `updated` is the current time; with a ledger file whose
content does not parse, loading fails with the state-corruption error and in
particular never yields any successfully loaded state. -/
theorem loadState_spec (file : Option String)
    (parse : String → Option RssState) (now : String) :
    (file = none → loadState file parse now =
      Except.ok { updated := now, entries := [] }) ∧
    (∀ text, file = some text → parse text = none →
      loadState file parse now = Except.error "RSS state file error") ∧
    (∀ text, file = some text → parse text = none →
      ∀ st : RssState, loadState file parse now ≠ Except.ok st) := by
  refine ⟨fun h => by subst h; rfl,
    fun text h hp => by subst h; simp [loadState, hp], ?_⟩
  intro text h hp st
  subst h
  simp [loadState, hp]

/-- Witness for C6: an absent file yields the fresh empty ledger; a present
but unparseable file yields the corruption error. -/
theorem loadState_spec_witness :
    loadState none (fun _ => none) "2024-01-01T00:00:00+00:00" =
      Except.ok { updated := "2024-01-01T00:00:00+00:00", entries := [] } ∧
    loadState (some "not json") (fun _ => none) "2024-01-01T00:00:00+00:00" =
      Except.error "RSS state file error" := by
  constructor
  · exact (loadState_spec none (fun _ => none)
      "2024-01-01T00:00:00+00:00").1 rfl
  · exact (loadState_spec (some "not json") (fun _ => none)
      "2024-01-01T00:00:00+00:00").2.1 "not json" rfl rfl

/-- `Settings` (src/main.py lines 26-35), the fields relevant to excerpts.
`excerpt_limit` defaults to 200 under the source comment `# Excerpt`; no
other line of the source reads it. -/
structure Settings where
  base_url : String := "http://localhost:8000"
  excerpt_limit : Nat := 200
  allowed_tags : List String := ["p", "a", "strong", "em", "ul", "li", "br"]
deriving DecidableEq, Repr

/-- The module-level `settings = Settings()` with its default field values
(the environment supplies only `data_dir`, which no claim needs). -/
def defaultSettings : Settings := {}

set_option maxRecDepth 4000 in
/-- C7 at its failing input: the feed item summary is `RssEntry.excerpt`
(src/main.py line 203), which returns the full `content` unchanged; an entry
whose content has 201 characters yields an excerpt of length 201, exceeding
the default `excerpt_limit` of 200, which the source never applies. -/
theorem excerpt_exceeds_limit :
    (RssEntry.excerpt
      ⟨"req-x", "T", "http://x", ⟨List.replicate 201 'a'⟩⟩).length = 201 ∧
    defaultSettings.excerpt_limit = 200 ∧
    ¬ (RssEntry.excerpt
        ⟨"req-x", "T", "http://x", ⟨List.replicate 201 'a'⟩⟩).length ≤
      defaultSettings.excerpt_limit := by
  refine ⟨?_, rfl, by decide⟩
  decide

/-- Observable outcome of a `GET /feed/{fmt}` request: a 200 response with a
content type and the state the feed is generated from, an `HTTPException`
with status and detail, a FastAPI request-validation rejection carrying the
offending path-parameter value, or an unhandled parse exception (a 500-class
failure). -/
inductive FeedResult where
  | response (status : Nat) (contentType : String) (state : RssState)
  | httpError (status : Nat) (detail : String)
  | validationError (fmt : String)
  | parseFailure
deriving DecidableEq, Repr

/-- The HTTP status of a feed outcome; FastAPI answers a request-validation
failure with 422 Unprocessable Entity, and an unhandled exception surfaces
as a 500-class server error. -/
def FeedResult.status : FeedResult → Nat
  | .response st _ _ => st
  | .httpError st _ => st
  | .validationError _ => 422
  | .parseFailure => 500

/-- `read_state_or_404` (src/main.py lines 317-324): absent ledger file
raises `HTTPException(404)` (default detail "Not Found"); a file that fails
`model_validate_json` raises out of the handler. -/
def read_state_or_404 (file : Option String)
    (parse : String → Option RssState) : Except FeedResult RssState :=
  match file with
  | none => Except.error (FeedResult.httpError 404 "Not Found")
  | some text =>
    match parse text with
    | some state => Except.ok state
    | none => Except.error FeedResult.parseFailure

/-- The body of the `/feed/{fmt}` handler `rss` (src/main.py lines 355-392):
load the state via `read_state_or_404`, then dispatch on the format string;
the fall-through `case _` raises `HTTPException(400, f"Unknown format:
{fmt}")`.  The body only ever executes for `fmt` accepted by the route's
path-parameter annotation — see `feedEndpoint` — which is why the
fall-through arm is dead code.  (The `epub` arm of the source serves the
Atom XML with an EPUB content type; no claim concerns the response body.) -/
def rss (file : Option String) (parse : String → Option RssState)
    (fmt : String) : FeedResult :=
  match read_state_or_404 file parse with
  | Except.error e => e
  | Except.ok state =>
    if fmt = "rss" then
      FeedResult.response 200 "application/rss+xml; charset=utf-8" state
    else if fmt = "atom" then
      FeedResult.response 200 "application/atom+xml" state
    else if fmt = "epub" then
      FeedResult.response 200 "application/epub+zip" state
    else
      FeedResult.httpError 400 ("Unknown format: " ++ fmt)

/-- A `GET /feed/{fmt}` request as routed by FastAPI.  The handler is
declared `def rss(fmt: Literal["rss", "atom", "epub"])` (src/main.py line
356), so FastAPI's pydantic validation of the path parameter rejects every
other value with a 422 validation error naming the offending input, before
the handler body runs; only the three literal values reach `rss`. -/
def feedEndpoint (file : Option String) (parse : String → Option RssState)
    (fmt : String) : FeedResult :=
  if fmt = "rss" ∨ fmt = "atom" ∨ fmt = "epub" then rss file parse fmt
  else FeedResult.validationError fmt

/-- C8 at its failing input: `GET /feed/bogus` — with or without a ledger —
is rejected by FastAPI's `Literal` path-parameter validation with status
422, not the claimed 400; and no request to the endpoint can ever produce
status 400, so the handler's `HTTPException(400, "Unknown format: ...")`
arm is dead code. -/
theorem feed_unknown_format_is_422 :
    feedEndpoint none (fun _ => none) "bogus" =
      FeedResult.validationError "bogus" ∧
    feedEndpoint (some "ledger") (fun _ => some ⟨"t0", []⟩) "bogus" =
      FeedResult.validationError "bogus" ∧
    (FeedResult.validationError "bogus").status = 422 ∧
    ∀ (file : Option String) (parse : String → Option RssState)
      (fmt : String), (feedEndpoint file parse fmt).status ≠ 400 := by
  refine ⟨rfl, rfl, rfl, ?_⟩
  intro file parse fmt
  unfold feedEndpoint
  by_cases hv : fmt = "rss" ∨ fmt = "atom" ∨ fmt = "epub"
  · rw [if_pos hv]
    unfold rss read_state_or_404
    cases file with
    | none => simp [FeedResult.status]
    | some text =>
      cases hp : parse text with
      | none => simp [hp, FeedResult.status]
      | some st =>
        rcases hv with h | h | h <;> subst h <;> simp [hp, FeedResult.status]
  · rw [if_neg hv]
    simp [FeedResult.status]

/-- Python truthiness test `not x` for `x : str | None`: true for `None`
and for the empty string. -/
def falsy : Option String → Bool
  | none => true
  | some t => t == ""

/-- `get_title` (src/main.py lines 112-123).  `fetch` embeds
`request.urlopen(url).read().decode("utf8")`, `none` when any of those steps
raises (the `except` branch returns "Untitled"); `findTitleString` embeds
`soup.find("title")` combined with the subsequent `.string` access: outer
`none` when no title element exists (the source then uses "Untitled"),
otherwise `some s` with `s` the element's `.string`, which bs4 reports as
`None` (`s = none`) for a title element without a single text child.  The
result models Python `str | None`. -/
def get_title (fetch : String → Option String)
    (findTitleString : String → Option (Option String)) (url : String) :
    Option String :=
  match fetch url with
  | none => some "Untitled"
  | some html =>
    match findTitleString html with
    | none => some "Untitled"
    | some s => s

/-- The title-resolution block of `submit` (src/main.py lines 295-301):

    if not req.title:
        if document.name not in ("file", "Untitled"):
            req.title = document.name
        else:
            req.title = get_title(req.url)
    if not req.title:
        req.title = "Untitled"

`title0` is the caller-supplied optional title, `docName` is
`document.name` from the conversion collaborator, `scraped` is the
`str | None` result of `get_title`.  Returns the final `req.title`. -/
def resolveTitle (title0 : Option String) (docName : String)
    (scraped : Option String) : String :=
  let t1 := if falsy title0 then
      (if docName ≠ "file" ∧ docName ≠ "Untitled" then some docName
       else scraped)
    else title0
  match t1 with
  | none => "Untitled"
  | some t => if t == "" then "Untitled" else t

/-- Counterexample to C9 as stated: with no caller title, a converted
document whose `name` is the empty string (no usable document title), and a
usable scraped page title "Scraped", the code resolves to "Untitled":
the scraping step is skipped because the empty `name` passes the
`not in ("file", "Untitled")` test, and the empty title then falls through
to the final fallback — the result is neither the scraped title nor the
document name. -/
theorem resolveTitle_counterexample :
    resolveTitle none "" (some "Scraped") = "Untitled" ∧
    ("Untitled" : String) ≠ "Scraped" ∧ ("Untitled" : String) ≠ "" := by
  refine ⟨rfl, by decide, by decide⟩

/-- C9 (amended): title resolution priority.  A non-empty caller title wins;
otherwise a document name outside {"file", "Untitled"} wins when non-empty,
but when it is empty the result is "Untitled" and scraping is skipped;
otherwise (document name "file" or "Untitled") a non-empty scraped string
wins; otherwise the fallback "Untitled". -/
theorem resolveTitle_spec (title0 : Option String) (docName : String)
    (scraped : Option String) :
    (∀ t, title0 = some t → t ≠ "" →
      resolveTitle title0 docName scraped = t) ∧
    (falsy title0 = true → docName ≠ "file" → docName ≠ "Untitled" →
      docName ≠ "" → resolveTitle title0 docName scraped = docName) ∧
    (falsy title0 = true → docName ≠ "file" → docName ≠ "Untitled" →
      docName = "" → resolveTitle title0 docName scraped = "Untitled") ∧
    (falsy title0 = true → (docName = "file" ∨ docName = "Untitled") →
      ∀ t, scraped = some t → t ≠ "" →
        resolveTitle title0 docName scraped = t) ∧
    (falsy title0 = true → (docName = "file" ∨ docName = "Untitled") →
      falsy scraped = true →
        resolveTitle title0 docName scraped = "Untitled") := by
  refine ⟨?_, ?_, ?_, ?_, ?_⟩
  · intro t ht hne
    subst ht
    have hf : falsy (some t) = false := by simp [falsy, hne]
    simp [resolveTitle, hf, hne]
  · intro hf hd1 hd2 hd3
    simp [resolveTitle, hf, hd1, hd2, hd3]
  · intro hf hd1 hd2 hd3
    subst hd3
    simp [resolveTitle, hf, hd1, hd2]
  · intro hf hd t hs hne
    subst hs
    have hnd : ¬ (docName ≠ "file" ∧ docName ≠ "Untitled") := by
      rcases hd with h | h <;> simp [h]
    simp [resolveTitle, hf, hnd, hne]
  · intro hf hd hfs
    have hnd : ¬ (docName ≠ "file" ∧ docName ≠ "Untitled") := by
      rcases hd with h | h <;> simp [h]
    cases scraped with
    | none => simp [resolveTitle, hf, hnd]
    | some t =>
      have ht : t = "" := by simpa [falsy] using hfs
      subst ht
      simp [resolveTitle, hf, hnd]

/-- Witness for C9 (amended): each priority step at a concrete input. -/
theorem resolveTitle_spec_witness :
    resolveTitle (some "Given") "Doc" (some "Scraped") = "Given" ∧
    resolveTitle none "Doc" (some "Scraped") = "Doc" ∧
    resolveTitle none "file" (some "Scraped") = "Scraped" ∧
    resolveTitle none "Untitled" none = "Untitled" := by
  refine ⟨?_, ?_, ?_, ?_⟩
  · exact (resolveTitle_spec (some "Given") "Doc" (some "Scraped")).1
      "Given" rfl (by decide)
  · exact (resolveTitle_spec none "Doc" (some "Scraped")).2.1
      rfl (by decide) (by decide) (by decide)
  · exact (resolveTitle_spec none "file" (some "Scraped")).2.2.2.1
      rfl (Or.inl rfl) "Scraped" rfl (by decide)
  · exact (resolveTitle_spec none "Untitled" none).2.2.2.2
      rfl (Or.inr rfl) rfl

/-- Counterexample to C10 as stated: a page whose title element has no
string — bs4's `.string` is `None` for `<title></title>` — makes `get_title`
return Python `None`, not a string, so "returns a string for every URL" is
false. -/
theorem get_title_counterexample :
    get_title (fun _ => some "<html><head><title></title></head></html>")
      (fun _ => some none) "http://x" = none := rfl

/-- C10 (amended): `get_title` never raises.  On a fetch failure it returns
"Untitled"; when the page has no title element it returns "Untitled"; when a
title element exists it returns that element's `.string` unchanged — a value
that may be `None` rather than a string. -/
theorem get_title_spec (fetch : String → Option String)
    (findTitleString : String → Option (Option String)) (url : String) :
    (fetch url = none → get_title fetch findTitleString url = some "Untitled") ∧
    (∀ html, fetch url = some html → findTitleString html = none →
      get_title fetch findTitleString url = some "Untitled") ∧
    (∀ html s, fetch url = some html → findTitleString html = some s →
      get_title fetch findTitleString url = s) := by
  refine ⟨?_, ?_, ?_⟩
  · intro h; simp [get_title, h]
  · intro html h hf; simp [get_title, h, hf]
  · intro html s h hf; simp [get_title, h, hf]

/-- Witness for C10 (amended): the three branches at concrete collaborator
behaviours, including the title "Weaseland" of the repository's test page. -/
theorem get_title_spec_witness :
    get_title (fun _ => none) (fun _ => none) "http://a" = some "Untitled" ∧
    get_title (fun _ => some "<html></html>") (fun _ => none) "http://b" =
      some "Untitled" ∧
    get_title (fun _ => some "<title>Weaseland</title>")
      (fun _ => some (some "Weaseland")) "https://essekkat.pl/" =
        some "Weaseland" := by
  refine ⟨?_, ?_, ?_⟩
  · exact (get_title_spec (fun _ => none) (fun _ => none) "http://a").1 rfl
  · exact (get_title_spec (fun _ => some "<html></html>") (fun _ => none)
      "http://b").2.1 "<html></html>" rfl rfl
  · exact (get_title_spec (fun _ => some "<title>Weaseland</title>")
      (fun _ => some (some "Weaseland")) "https://essekkat.pl/").2.2
      "<title>Weaseland</title>" (some "Weaseland") rfl rfl

end LinksToEpub
